import Mathlib

/-!
Verification of the auto-typer repository (`src/auto-typer.py`) against its
natural-language specification.

The Python source is shallowly embedded below.  Each Lean definition mirrors
one Python function of `auto-typer.py` and keeps its name.  Line numbers are
modelled as integers (`Int`) where the Python code can drive them below the
start of the file, and as `Nat` where it cannot.  The external pieces that the
embedding abstracts are recorded next to each definition:

* the CPython tokenizer is abstracted as a token stream (`Tok`); the checked
  facts about its output shape (a blank line yields one `NL` token, a
  comment-only line yields `COMMENT` then `NL`, the logical line holding the
  terminating colon ends with a `NEWLINE` token, an empty slice tokenizes to
  `ENCODING`/`ENDMARKER` only) parametrise the theorems as hypotheses or
  concrete streams;
* `ast.walk` is a breadth-first traversal (CPython uses a deque seeded with the
  root, popping from the left and appending children on the right); it is
  embedded as `walkBFS`;
* the OpenAI completion call is abstracted as an oracle
  `String → Except Unit String`.
-/

namespace AutoTyper

/-! ## Typedness classifier (`auto-typer.py` lines 23, 111-157) -/

/-- Embeds `Typedness = Enum("Typedness", "fully no_args no_return")`. -/
inductive Typedness where
  | fully
  | no_args
  | no_return
deriving DecidableEq, Repr

/-- One entry of `function_node.args.args`: the parameter name and the
optional annotation expression (kept as its unparsed text). -/
structure Arg where
  arg : String
  annot : Option String
deriving DecidableEq, Repr

/-- The fields of an `ast.FunctionDef` node that the classifier and prompt
builder read.  The `args` field is `function_node.args.args` — the plain
positional parameters, the only list `all_args_have_type` iterates — while
`posonlyargs`, `kwonlyargs`, `vararg` and `kwarg` carry the remaining
parameter kinds of the `ast.arguments` object, present so that theorems can
range over the function's full parameter set. -/
structure FunctionDefNode where
  name : String
  posonlyargs : List Arg
  args : List Arg
  kwonlyargs : List Arg
  vararg : Option Arg
  kwarg : Option Arg
  returns : Option String
  firstBodyLine : Int
  end_lineno : Option Int
deriving DecidableEq, Repr

/-- Embeds `all_args_have_type` (lines 150-157): iterates over
`function_node.args.args` and returns `False` on the first argument whose
`annotation` is absent. -/
def all_args_have_type (fn : FunctionDefNode) : Bool :=
  fn.args.all (fun a => a.annot.isSome)

/-- Embeds `has_return_type` (lines 128-132): `function_node.returns is not None`. -/
def has_return_type (fn : FunctionDefNode) : Bool :=
  fn.returns.isSome

/-- Embeds `has_return_statement` (lines 135-147).  The surrounding tree walk
(`ast.walk(tree)` filtered to `ast.Return` / `ast.Yield` nodes) is abstracted
as `retLines`, the list of line numbers of all return/yield nodes of the tree.
If `end_lineno` is `None` the Python code warns and returns `False`; otherwise
it reports whether some return/yield line lies in
`[function_node.body[0].lineno, function_node.end_lineno]`. -/
def has_return_statement (fn : FunctionDefNode) (retLines : List Int) : Bool :=
  match fn.end_lineno with
  | none => false
  | some endL => retLines.any (fun l => fn.firstBodyLine ≤ l && l ≤ endL)

/-- Embeds `get_function_typedness` (lines 111-125). -/
def get_function_typedness (fn : FunctionDefNode) (retLines : List Int) : Typedness :=
  if ¬ all_args_have_type fn then Typedness.no_args
  else if has_return_statement fn retLines && ¬ has_return_type fn then Typedness.no_return
  else Typedness.fully

/-- Embeds `prep_function_def_from_node` (lines 220-225):
`"def " + name + "(" + function_node.args.args[0].arg + ":"`.  The Python
subscript `args.args[0]` raises `IndexError` on an empty argument list; the
embedding returns `none` in exactly that case. -/
def prep_function_def_from_node (fn : FunctionDefNode) : Option String :=
  match fn.args with
  | [] => none
  | a :: _ => some ("def " ++ fn.name ++ "(" ++ a.arg ++ ":")

/-- The node of `def f(x: int, *, y):\n    return y`: the positional list
`args.args` holds only the annotated `x`; the keyword-only `y` carries no
annotation; the body's single return statement is on line 2. -/
def kwonly_example_fn : FunctionDefNode :=
  ⟨"f", [], [⟨"x", some "int"⟩], [⟨"y", none⟩], none, none, none, 2, some 2⟩

/-! ## Range resolver (`auto-typer.py` lines 53-108)

`get_typed_function_ranges` sets `start = node.lineno`,
`end = node.body[0].lineno - 1`, tokenizes the slice
`source.splitlines(keepends=True)[start - 1 : end]` and walks the token list
in reverse, adjusting `end`:

* `COLON` breaks the loop;
* `COMMENT`, `NEWLINE`, `ENDMARKER` leave `end` unchanged;
* `NL` decrements `end` by one;
* `STRING` decrements `end` by the number of physical lines of the string;
* any other token (including the leading `ENCODING` token) only prints a
  diagnostic and leaves `end` unchanged.

The CPython tokenizer itself is abstracted: `Tok` is the alphabet of token
kinds the loop distinguishes, and theorems quantify over token streams whose
shape matches what the tokenizer emits for the scenario at hand. -/

/-- Token kinds distinguished by the reverse scan of
`get_typed_function_ranges`.  `string n` carries
`len(tokeninfo.string.splitlines())`, the only attribute the loop reads. -/
inductive Tok where
  | colon
  | comment
  | nl
  | newline
  | endmarker
  | encoding
  | string (nLines : Nat)
  | other
deriving DecidableEq, Repr

/-- Embeds the reverse token loop of `get_typed_function_ranges`
(lines 73-101).  The argument list is the token stream already reversed, and
the accumulator is the running `end` value. -/
def adjustEnd : List Tok → Int → Int
  | [], e => e
  | Tok.colon :: _, e => e
  | Tok.comment :: ts, e => adjustEnd ts e
  | Tok.nl :: ts, e => adjustEnd ts (e - 1)
  | Tok.newline :: ts, e => adjustEnd ts e
  | Tok.endmarker :: ts, e => adjustEnd ts e
  | Tok.encoding :: ts, e => adjustEnd ts e
  | Tok.string n :: ts, e => adjustEnd ts (e - n)
  | Tok.other :: ts, e => adjustEnd ts e

/-- The resolved `end` of one function: the loop runs on the reversed token
stream of the slice, starting from `node.body[0].lineno - 1`. -/
def resolveEnd (sliceToks : List Tok) (firstBodyLine : Int) : Int :=
  adjustEnd sliceToks.reverse (firstBodyLine - 1)

/-- The `(start, end)` pair yielded for one function by
`get_typed_function_ranges`: `start` is `node.lineno` unmodified, `end` is the
adjusted value. -/
def get_typed_function_range (defLine firstBodyLine : Int)
    (sliceToks : List Tok) : Int × Int :=
  (defLine, resolveEnd sliceToks firstBodyLine)

/-- A physical line sitting between the signature's terminating colon line and
the first body statement.  Such a line is either blank or comment-only (any
other content would itself be the first body statement). -/
inductive TrailLine where
  | blank
  | commentOnly
deriving DecidableEq, Repr

/-- Token stream emitted by the tokenizer for one trailing line: a blank line
yields a single `NL` token; a comment-only line yields `COMMENT` then `NL`. -/
def TrailLine.toks : TrailLine → List Tok
  | TrailLine.blank => [Tok.nl]
  | TrailLine.commentOnly => [Tok.comment, Tok.nl]

/-- Concatenated token stream of a run of trailing lines. -/
def trailToks (trail : List TrailLine) : List Tok :=
  (trail.map TrailLine.toks).flatten

/-! ## Prompt builder (`auto-typer.py` lines 235-257)

`prep_file(content, function_range, prep_function_def, first_import_line)`
splits `content` into lines with `splitlines(keepends=True)`; the embedding
works directly at line granularity, taking the line list.  `function_range`
contributes only its `start` and `end` fields here, passed separately. -/

/-- The synthetic import line `prep_file` inserts (line 245). -/
def typing_import : List String := ["from typing import *\n"]

/-- Embeds `prep_file` (lines 235-257).  When `first_import_line` is absent
the typing import is prepended; otherwise the Python code first runs
`assert first_import_line < function_range.start` — the embedding returns
`none` exactly when that assertion fires — and splices the typing import above
line `first_import_line`.  It then builds
`lines[function_range.end + 1 :] + ["\n"] + lines[: function_range.start]`,
appends `prep_function_def` and joins. -/
def prep_file (lines : List String) (start end_ : Nat) (prep_function_def : String)
    (first_import_line : Option Nat) : Option String :=
  match first_import_line with
  | none =>
      let ls := typing_import ++ lines
      some (String.join
        (ls.drop (end_ + 1) ++ ["\n"] ++ ls.take start ++ [prep_function_def]))
  | some fil =>
      if fil < start then
        let ls := lines.take (fil - 1) ++ typing_import ++ lines.drop (fil - 1)
        some (String.join
          (ls.drop (end_ + 1) ++ ["\n"] ++ ls.take start ++ [prep_function_def]))
      else none

/-! ## Splice mechanism of `auto_typing` (`auto-typer.py` lines 299-353) -/

/-- One completion splice of `auto_typing` (lines 344-351): with the current
line list and the running `offset`, the replacement lines are spliced over the
range — `lines[: start - 1 + offset] + completion_lines + lines[end + offset :]`
— and the offset grows by the line-count difference
`len(completion_lines) - (end + 1 - start)`.  Python's signed slice indices
are modelled with `Int.toNat`; the claims proved below stay in the regime
where the indices are non-negative. -/
def splice_step (lines : List String) (offset : Int) (start end_ : Int)
    (completion_lines : List String) : List String × Int :=
  (lines.take (start - 1 + offset).toNat ++ completion_lines
      ++ lines.drop (end_ + offset).toNat,
    offset + completion_lines.length - (end_ + 1 - start))

/-- The original signature lines of a range: `lines[start - 1 : end]` in
Python notation. -/
def signature_slice (lines : List String) (start end_ : Int) : List String :=
  (lines.drop (start - 1).toNat).take (end_ + 1 - start).toNat

/-- The per-file splice pass of `auto_typing` (lines 305-351): starting from
the file's lines and `offset = 0`, every processed range is spliced in turn
with its replacement lines. -/
def splice_run (original : List String) (ranges : List (Int × Int))
    (repl : Int × Int → List String) : List String × Int :=
  ranges.foldl (fun st r => splice_step st.1 st.2 r.1 r.2 (repl r)) (original, 0)

/-! ## Completion retry (`auto-typer.py` lines 260-278, 405-414, 329-351) -/

/-- Python's `str.splitlines(keepends=True)` restricted to `\n` terminators
(the only terminator appearing in the tool's own prompt strings): splits after
every newline character keeping it; a trailing fragment without a newline is a
line of its own, and an empty trailing fragment is no line at all. -/
def splitLinesKeepEnds (s : String) : List String :=
  match (s.split (fun c => c = '\n')).reverse with
  | [] => []
  | last :: revInit =>
      (revInit.reverse.map (fun p => p.push '\n'))
        ++ (if last = "" then [] else [last])

/-- One line of `shorten_file_by_removing_comments` (lines 266-275): a line
whose stripped text starts with a hash is blanked; one starting with a triple
quote toggles the block-comment flag and is blanked; while the (freshly
toggled) flag is set the line is blanked; otherwise it is kept. -/
def shorten_step (delete : Bool) (line : String) : Bool × String :=
  (if (line.trim.startsWith "\"\"\"" || line.trim.startsWith "\x27\x27\x27") = true
      then !delete else delete,
    if (line.trim.startsWith "#"
        || (line.trim.startsWith "\"\"\"" || line.trim.startsWith "\x27\x27\x27")
        || (if (line.trim.startsWith "\"\"\"" || line.trim.startsWith "\x27\x27\x27") = true
            then !delete else delete)) = true
      then "" else line)

/-- The line sweep of `shorten_file_by_removing_comments`, threading the
block-comment flag through the lines. -/
def shorten_lines : Bool → List String → List String
  | _, [] => []
  | d, l :: ls => (shorten_step d l).2 :: shorten_lines (shorten_step d l).1 ls

/-- Embeds `shorten_file_by_removing_comments` (lines 260-278): blanks
comment and block-comment lines, discards every line whose stripped text is
empty (which also removes blank lines), and joins the survivors. -/
def shorten_file_by_removing_comments (content : String) : String :=
  String.join ((shorten_lines false (splitLinesKeepEnds content)).filter
    (fun l => l.trim != ""))

/-- Embeds `try_complete_or_shorten` (lines 405-414).  The OpenAI call
`complete` is an oracle `String → Except Unit String`, with `Except.error`
modelling a raised `openai.error.InvalidRequestError` (prompt too large): try
the prompt, and on failure try once more with the shortened prompt.  A failure
of the second call propagates as the result. -/
def try_complete_or_shorten (complete : String → Except Unit String)
    (prompt : String) : Except Unit String :=
  match complete prompt with
  | Except.ok c => Except.ok c
  | Except.error _ => complete (shorten_file_by_removing_comments prompt)

/-- One iteration of the completion/splice loop of `auto_typing`
(lines 329-351) for a function that needs annotations: on success the
completion — prefixed with the partial signature and terminated by a newline —
replaces the signature range via `splice_step`; when
`try_complete_or_shorten` raises (both oracle calls failed), the
`except openai.error.InvalidRequestError` handler leaves `completion = None`,
so lines and offset are unchanged and the loop moves on. -/
def process_function (complete : String → Except Unit String)
    (lines : List String) (offset : Int) (start end_ : Int)
    (prepped prep_function_def : String) : List String × Int :=
  match try_complete_or_shorten complete prepped with
  | Except.error _ => (lines, offset)
  | Except.ok comp =>
      splice_step lines offset start end_
        (splitLinesKeepEnds (prep_function_def ++ comp ++ "\n"))

/-- An oracle that rejects every prompt, exercising the failure path of
`try_complete_or_shorten`. -/
def failing_oracle : String → Except Unit String :=
  fun _ => Except.error ()

/-! ## First-import search (`auto-typer.py` lines 33-50)

`find_first_import` parses the file and walks the tree with `ast.walk`,
returning the `lineno` of the first node that `isinstance(node, ast.Import)`
(plain `import` only — `from ... import ...` nodes are `ast.ImportFrom` and do
not match), or `None`.  `ast.walk` is breadth first: it pops nodes from the
left of a deque seeded with the root and appends each popped node's children
on the right. -/

/-- The node kinds relevant to `find_first_import`: plain imports,
from-imports, function definitions, the module root, and everything else. -/
inductive PyKind where
  | module
  | funcDef
  | imp
  | impFrom
  | other
deriving DecidableEq, Repr

/-- A forest of syntax-tree nodes.  A node carries its kind, its `lineno` and
its children; the nested child list is encoded structurally as the
`children` forest, and a node's right siblings as the `siblings` forest, so
every function below is plain structural recursion.  (The module root has no
`lineno` in CPython; the walk never reads it, so the model stores a number
there too.) -/
inductive PyForest where
  | nil
  | node (kind : PyKind) (lineno : Nat) (children : PyForest) (siblings : PyForest)
deriving DecidableEq, Repr

/-- Concatenation of two forests: the walk's queue extension. -/
def fappend : PyForest → PyForest → PyForest
  | PyForest.nil, g => g
  | PyForest.node k l c s, g => PyForest.node k l c (fappend s g)

/-- Number of nodes in a forest, children included: the walk's fuel. -/
def sizeF : PyForest → Nat
  | PyForest.nil => 0
  | PyForest.node _ _ c s => 1 + sizeF c + sizeF s

/-- The top-level nodes of a forest as (kind, lineno) pairs, in order — for a
module's child forest these are the module-level statements. -/
def topNodes : PyForest → List (PyKind × Nat)
  | PyForest.nil => []
  | PyForest.node k l _ s => (k, l) :: topNodes s

/-- Breadth-first traversal with explicit fuel: pop the first node of the
queue, visit it, and append its children at the right end of the queue.  With
fuel `sizeF q` this is exactly `ast.walk` seeded with queue `q`. -/
def walkBFSFuel : Nat → PyForest → List (PyKind × Nat)
  | 0, _ => []
  | _ + 1, PyForest.nil => []
  | f + 1, PyForest.node k l c s => (k, l) :: walkBFSFuel f (fappend s c)

/-- Embeds `ast.walk(tree)` as the visited (kind, lineno) pairs in order. -/
def walkBFS (q : PyForest) : List (PyKind × Nat) :=
  walkBFSFuel (sizeF q) q

/-- Embeds `find_first_import` (lines 33-50): the first `ast.Import` node in
`ast.walk` order, mapped to its `lineno`; `none` when the walk finds no such
node. -/
def find_first_import (tree : PyForest) : Option Nat :=
  ((walkBFS tree).find? (fun n => n.1 == PyKind.imp)).map Prod.snd

/-- Whether a forest contains a plain-import node anywhere (spec side: "the
file contains no import statement at all"; `ImportFrom` nodes never count). -/
def containsImport : PyForest → Bool
  | PyForest.nil => false
  | PyForest.node k _ c s =>
      (k == PyKind.imp) || containsImport c || containsImport s

/-- Line numbers of all plain-import nodes in document (depth-first) order:
the first entry is the first import statement appearing in the file. -/
def importLinenos : PyForest → List Nat
  | PyForest.nil => []
  | PyForest.node k l c s =>
      (if k == PyKind.imp then [l] else []) ++ importLinenos c ++ importLinenos s

/-- A module with a nested import on line 2 inside a function defined on
line 1, and a module-level import on line 3 — the tree of
`def f():\n    import os\nimport sys\n`. -/
def nestedImportTree : PyForest :=
  PyForest.node PyKind.module 0
    (PyForest.node PyKind.funcDef 1
      (PyForest.node PyKind.imp 2 PyForest.nil PyForest.nil)
      (PyForest.node PyKind.imp 3 PyForest.nil PyForest.nil))
    PyForest.nil

/-- The adjustment loop never increases `end`: every branch either keeps the
accumulator or decrements it. -/
theorem adjustEnd_le (ts : List Tok) (e : Int) : adjustEnd ts e ≤ e := by
  induction ts generalizing e with
  | nil => simp [adjustEnd]
  | cons t ts ih =>
    cases t with
    | colon => simp [adjustEnd]
    | comment => simpa [adjustEnd] using ih e
    | nl =>
      calc adjustEnd (Tok.nl :: ts) e = adjustEnd ts (e - 1) := by simp [adjustEnd]
        _ ≤ e - 1 := ih (e - 1)
        _ ≤ e := by omega
    | newline => simpa [adjustEnd] using ih e
    | endmarker => simpa [adjustEnd] using ih e
    | encoding => simpa [adjustEnd] using ih e
    | string n =>
      calc adjustEnd (Tok.string n :: ts) e = adjustEnd ts (e - n) := by simp [adjustEnd]
        _ ≤ e - n := ih (e - n)
        _ ≤ e := by omega
    | other => simpa [adjustEnd] using ih e

/-- Scanning the reversed tokens of a run of trailing lines decrements the
accumulator exactly once per trailing line, then continues with the rest of
the stream. -/
theorem adjustEnd_revTrail (trail : List TrailLine) (rest : List Tok) (e : Int) :
    adjustEnd ((trailToks trail).reverse ++ rest) e
      = adjustEnd rest (e - trail.length) := by
  induction trail generalizing rest e with
  | nil => simp [trailToks]
  | cons t ts ih =>
    have hsplit : (trailToks (t :: ts)).reverse ++ rest
        = (trailToks ts).reverse ++ (t.toks.reverse ++ rest) := by
      simp [trailToks, List.reverse_append, List.append_assoc]
    rw [hsplit, ih]
    cases t with
    | blank =>
      simp only [TrailLine.toks, List.reverse_cons, List.reverse_nil,
        List.nil_append, List.cons_append, adjustEnd]
      congr 1
      simp only [List.length_cons]
      push_cast
      ring
    | commentOnly =>
      simp only [TrailLine.toks, List.reverse_cons, List.reverse_nil,
        List.nil_append, List.cons_append, List.append_assoc, adjustEnd]
      congr 1
      simp only [List.length_cons]
      push_cast
      ring

/-- The full slice scan for a well-formed signature slice: tokens before the
terminating colon, the colon, the `NEWLINE` closing its logical line, the
trailing lines' tokens, and the final `ENDMARKER`.  The result equals the
initial `end` minus the number of trailing lines. -/
theorem resolveEnd_wellFormed (sigPre : List Tok) (trail : List TrailLine)
    (firstBodyLine : Int) :
    resolveEnd (sigPre ++ [Tok.colon, Tok.newline] ++ trailToks trail ++ [Tok.endmarker])
        firstBodyLine
      = firstBodyLine - 1 - trail.length := by
  unfold resolveEnd
  have hrev : (sigPre ++ [Tok.colon, Tok.newline] ++ trailToks trail
        ++ [Tok.endmarker]).reverse
      = Tok.endmarker :: ((trailToks trail).reverse
          ++ (Tok.newline :: Tok.colon :: sigPre.reverse)) := by
    simp [List.reverse_append]
  rw [hrev]
  show adjustEnd ((trailToks trail).reverse
      ++ (Tok.newline :: Tok.colon :: sigPre.reverse)) (firstBodyLine - 1)
    = firstBodyLine - 1 - trail.length
  rw [adjustEnd_revTrail]
  simp [adjustEnd]


end AutoTyper

namespace AutoTyper

/-! ## Claims C1, C2, C10 -/

/-- C1 counterexample: for `def f(x: int, *, y):\n    return y` the
keyword-only parameter `y` lacks a type annotation, yet the classifier
returns `no_return`, not `no_args`: `all_args_have_type` (line 154) iterates
only the positional list `args.args = [x]` and never sees `y`. -/
theorem c1_counterexample_kwonly_param :
    (∃ a ∈ kwonly_example_fn.kwonlyargs, a.annot = none) ∧
    get_function_typedness kwonly_example_fn [2] = Typedness.no_return ∧
    get_function_typedness kwonly_example_fn [2] ≠ Typedness.no_args := by
  refine ⟨by decide, by decide, by decide⟩

/-- C1 amended: for every function with at least one positional parameter
(one of `args.args`) lacking a type annotation, the classifier returns
`no_args` regardless of the return annotation and of any return/yield
statements in the tree; and the classifier never inspects the parameters
outside `args.args` — positional-only, keyword-only, `*args`, `**kwargs` —
so replacing them arbitrarily leaves the verdict unchanged. -/
theorem c1_missing_positional_arg_gives_no_args (name : String)
    (po args ko : List Arg) (va kw : Option Arg) (returns : Option String)
    (firstBodyLine : Int) (end_lineno : Option Int) (retLines : List Int)
    (po2 ko2 : List Arg) (va2 kw2 : Option Arg)
    (h : ∃ a ∈ args, a.annot = none) :
    get_function_typedness
        ⟨name, po, args, ko, va, kw, returns, firstBodyLine, end_lineno⟩ retLines
      = Typedness.no_args ∧
    get_function_typedness
        ⟨name, po2, args, ko2, va2, kw2, returns, firstBodyLine, end_lineno⟩ retLines
      = get_function_typedness
          ⟨name, po, args, ko, va, kw, returns, firstBodyLine, end_lineno⟩ retLines := by
  obtain ⟨a, ha, hann⟩ := h
  have hfalse : all_args_have_type
      ⟨name, po, args, ko, va, kw, returns, firstBodyLine, end_lineno⟩ = false := by
    simp only [all_args_have_type]
    rw [List.all_eq_false]
    exact ⟨a, ha, by simp [hann]⟩
  constructor
  · simp [get_function_typedness, hfalse]
  · rfl

/-- Witness for C1 amended at a concrete input: `def add(x, y): return x + y`
from the repository's test file, with both positional parameters unannotated
and a return statement on line 14; the second conjunct swaps in an
unannotated keyword-only parameter `z` without changing the verdict. -/
theorem c1_missing_positional_arg_gives_no_args_witness :
    get_function_typedness
        ⟨"add", [], [⟨"x", none⟩, ⟨"y", none⟩], [], none, none, none, 14, some 14⟩ [14]
      = Typedness.no_args ∧
    get_function_typedness
        ⟨"add", [], [⟨"x", none⟩, ⟨"y", none⟩], [⟨"z", none⟩], none, none, none, 14, some 14⟩ [14]
      = get_function_typedness
          ⟨"add", [], [⟨"x", none⟩, ⟨"y", none⟩], [], none, none, none, 14, some 14⟩ [14] :=
  c1_missing_positional_arg_gives_no_args "add" [] [⟨"x", none⟩, ⟨"y", none⟩] []
    none none none 14 (some 14) [14] [] [⟨"z", none⟩] none none
    ⟨⟨"x", none⟩, by simp, rfl⟩

/-- C2: for every function all of whose parameters are annotated, the
classifier returns `no_return` exactly when some return/yield line lies within
the body's line span (which requires a known `end_lineno`) and no return-type
annotation is declared; in every other case it returns `fully`. -/
theorem c2_all_args_typed_classification (fn : FunctionDefNode) (retLines : List Int)
    (h : ∀ a ∈ fn.args, a.annot.isSome) :
    (get_function_typedness fn retLines = Typedness.no_return ↔
      ((∃ endL, fn.end_lineno = some endL ∧
          ∃ l ∈ retLines, fn.firstBodyLine ≤ l ∧ l ≤ endL) ∧ fn.returns = none)) ∧
    (get_function_typedness fn retLines = Typedness.no_return ∨
      get_function_typedness fn retLines = Typedness.fully) := by
  have hall : all_args_have_type fn = true := by
    simp only [all_args_have_type, List.all_eq_true]
    exact fun a ha => h a ha
  have hret : (has_return_statement fn retLines = true) ↔
      (∃ endL, fn.end_lineno = some endL ∧
        ∃ l ∈ retLines, fn.firstBodyLine ≤ l ∧ l ≤ endL) := by
    cases hend : fn.end_lineno with
    | none => simp [has_return_statement, hend]
    | some endL =>
      simp only [has_return_statement, hend, List.any_eq_true, Bool.and_eq_true,
        decide_eq_true_eq, Option.some.injEq]
      constructor
      · rintro ⟨l, hl, h1, h2⟩
        exact ⟨endL, rfl, l, hl, h1, h2⟩
      · rintro ⟨e, he, l, hl, h1, h2⟩
        cases he
        exact ⟨l, hl, h1, h2⟩
  constructor
  · rw [← hret]
    unfold get_function_typedness
    cases hrs : has_return_statement fn retLines <;>
      cases hrt : fn.returns <;>
        simp_all [has_return_type]
  · unfold get_function_typedness
    cases hrs : has_return_statement fn retLines <;>
      cases hrt : fn.returns <;>
        simp_all [has_return_type]

/-- Witness for C2 at a concrete input: `def sub(x: int, y: int):` from the
repository's test file — parameters fully annotated, a return on line 11
inside the body span `[11, 11]`, no return annotation — classified
`no_return`, matching the test's expectation. -/
theorem c2_all_args_typed_classification_witness :
    (get_function_typedness
        ⟨"sub", [], [⟨"x", some "int"⟩, ⟨"y", some "int"⟩], [], none, none, none, 11, some 11⟩ [11]
        = Typedness.no_return ↔
      ((∃ endL, (some 11 : Option Int) = some endL ∧
          ∃ l ∈ ([11] : List Int), (11 : Int) ≤ l ∧ l ≤ endL) ∧
        (none : Option String) = none)) ∧
    (get_function_typedness
        ⟨"sub", [], [⟨"x", some "int"⟩, ⟨"y", some "int"⟩], [], none, none, none, 11, some 11⟩ [11]
        = Typedness.no_return ∨
      get_function_typedness
        ⟨"sub", [], [⟨"x", some "int"⟩, ⟨"y", some "int"⟩], [], none, none, none, 11, some 11⟩ [11]
        = Typedness.fully) :=
  c2_all_args_typed_classification
    ⟨"sub", [], [⟨"x", some "int"⟩, ⟨"y", some "int"⟩], [], none, none, none, 11, some 11⟩ [11]
    (by intro a ha; fin_cases ha <;> rfl)

/-- C10: whenever the classifier labels a function `no_args`, its positional
argument list is non-empty, so `prep_function_def_from_node` — which reads
`args.args[0]` — succeeds rather than raising `IndexError`. -/
theorem c10_no_args_implies_first_arg_exists (fn : FunctionDefNode) (retLines : List Int)
    (h : get_function_typedness fn retLines = Typedness.no_args) :
    fn.args ≠ [] ∧ (prep_function_def_from_node fn).isSome := by
  have hargs : fn.args ≠ [] := by
    intro hnil
    have hall : all_args_have_type fn = true := by
      simp [all_args_have_type, hnil]
    rw [get_function_typedness, if_neg (by simp [hall])] at h
    split at h <;> exact Typedness.noConfusion h
  refine ⟨hargs, ?_⟩
  cases hfa : fn.args with
  | nil => exact absurd hfa hargs
  | cons a rest => simp [prep_function_def_from_node, hfa]

/-- Witness for C10 at the concrete `add` function of the test file. -/
theorem c10_no_args_implies_first_arg_exists_witness :
    (⟨"add", [], [⟨"x", none⟩, ⟨"y", none⟩], [], none, none, none, 14, some 14⟩ : FunctionDefNode).args ≠ [] ∧
    (prep_function_def_from_node
      ⟨"add", [], [⟨"x", none⟩, ⟨"y", none⟩], [], none, none, none, 14, some 14⟩).isSome :=
  c10_no_args_implies_first_arg_exists
    ⟨"add", [], [⟨"x", none⟩, ⟨"y", none⟩], [], none, none, none, 14, some 14⟩ [14] (by decide)

/-! ## Claims C3, C4, C5 -/

/-- C3: for every function whose slice tokenizes to arbitrary signature
tokens, the terminating colon closed by its `NEWLINE` token, and then trailing
blank and/or comment-only lines — each occupying exactly one physical line
between the colon line and the first body statement, which the hypothesis
records — the yielded range is `(defLine, colonLine)`: the resolved `end` is
the line bearing the terminating colon, the multi-line signature body and the
trailing lines notwithstanding. -/
theorem c3_trailing_lines_resolve_to_colon_line
    (defLine colonLine firstBodyLine : Int) (sigPre : List Tok)
    (trail : List TrailLine)
    (h : firstBodyLine = colonLine + trail.length + 1) :
    get_typed_function_range defLine firstBodyLine
        (sigPre ++ [Tok.colon, Tok.newline] ++ trailToks trail ++ [Tok.endmarker])
      = (defLine, colonLine) := by
  unfold get_typed_function_range
  rw [resolveEnd_wellFormed]
  have heq : firstBodyLine - 1 - (trail.length : Int) = colonLine := by omega
  rw [heq]

/-- Witness for C3: the multi-line `sub` signature of the repository's test
file (lines 7-10, colon on line 10), extended with one trailing blank line and
one trailing comment-only line, first body statement on line 13.  The
signature's internal tokens include the annotation colons and the `NL` tokens
of its continuation lines. -/
theorem c3_trailing_lines_resolve_to_colon_line_witness :
    (13 : Int) = 10 + (([TrailLine.blank, TrailLine.commentOnly] : List TrailLine).length : Int) + 1 ∧
    get_typed_function_range 7 13
        ([Tok.other, Tok.other, Tok.other, Tok.nl, Tok.other, Tok.colon, Tok.other,
            Tok.other, Tok.nl, Tok.other, Tok.colon, Tok.other, Tok.nl, Tok.other]
          ++ [Tok.colon, Tok.newline]
          ++ trailToks [TrailLine.blank, TrailLine.commentOnly] ++ [Tok.endmarker])
      = (7, 10) :=
  ⟨by decide,
    c3_trailing_lines_resolve_to_colon_line 7 10 13
      [Tok.other, Tok.other, Tok.other, Tok.nl, Tok.other, Tok.colon, Tok.other,
        Tok.other, Tok.nl, Tok.other, Tok.colon, Tok.other, Tok.nl, Tok.other]
      [TrailLine.blank, TrailLine.commentOnly] (by decide)⟩

/-- C4 counterexample: the one-line function `def f(): return 1`.  Here
`node.lineno = 1` and `node.body[0].lineno = 1`, so the slice
`lines[1 - 1 : 0]` is empty and tokenizes to `ENCODING` then `ENDMARKER`
alone.  No colon token is found, `end` stays at `body[0].lineno - 1 = 0`, and
the yielded range violates `startLine ≤ endLine`: `start = 1 > 0 = end`. -/
theorem c4_counterexample_one_liner :
    ¬ ((get_typed_function_range 1 1 [Tok.encoding, Tok.endmarker]).1
        ≤ (get_typed_function_range 1 1 [Tok.encoding, Tok.endmarker]).2) := by
  decide

/-- C4 amended: `startLine ≤ endLine` holds for every function whose first
body statement lies on a later line than the signature's terminating colon —
equivalently, whenever the slice is non-empty and well formed (signature
tokens, terminating colon and `NEWLINE`, trailing blank/comment-only lines,
`ENDMARKER`) with the `def` line at or before the colon line.  The one-line
function excluded by the amendment is exactly the counterexample above. -/
theorem c4_amended_start_le_end
    (defLine colonLine firstBodyLine : Int) (sigPre : List Tok)
    (trail : List TrailLine)
    (hcolon : defLine ≤ colonLine)
    (hbody : firstBodyLine = colonLine + trail.length + 1) :
    (get_typed_function_range defLine firstBodyLine
        (sigPre ++ [Tok.colon, Tok.newline] ++ trailToks trail ++ [Tok.endmarker])).1
      ≤ (get_typed_function_range defLine firstBodyLine
          (sigPre ++ [Tok.colon, Tok.newline] ++ trailToks trail ++ [Tok.endmarker])).2 := by
  unfold get_typed_function_range
  rw [resolveEnd_wellFormed]
  simp only
  omega

/-- Witness for C4 amended: the `sub` function of the repository's test file
(lines 7-10, colon on line 10, body on line 11, no trailing lines), for which
the test asserts `start = 7` and `end = 10`. -/
theorem c4_amended_start_le_end_witness :
    (7 : Int) ≤ 10 ∧ (11 : Int) = 10 + (([] : List TrailLine).length : Int) + 1 ∧
    (get_typed_function_range 7 11
        ([Tok.other, Tok.nl, Tok.other, Tok.colon, Tok.nl, Tok.other]
          ++ [Tok.colon, Tok.newline] ++ trailToks [] ++ [Tok.endmarker])).1
      ≤ (get_typed_function_range 7 11
          ([Tok.other, Tok.nl, Tok.other, Tok.colon, Tok.nl, Tok.other]
            ++ [Tok.colon, Tok.newline] ++ trailToks [] ++ [Tok.endmarker])).2 :=
  ⟨by decide, by decide,
    c4_amended_start_le_end 7 10 11
      [Tok.other, Tok.nl, Tok.other, Tok.colon, Tok.nl, Tok.other] []
      (by decide) (by decide)⟩

/-! ## Claim C6 -/

/-- Unfolding of `prep_file` on a present first import satisfying the
assertion `first_import_line < function_range.start`. -/
theorem prep_file_some (lines : List String) (start end_ fil : Nat)
    (prep_function_def : String) (h : fil < start) :
    prep_file lines start end_ prep_function_def (some fil)
      = some (String.join
          ((lines.take (fil - 1) ++ typing_import ++ lines.drop (fil - 1)).drop (end_ + 1)
            ++ ["\n"]
            ++ (lines.take (fil - 1) ++ typing_import ++ lines.drop (fil - 1)).take start
            ++ [prep_function_def])) := by
  simp only [prep_file]
  rw [if_pos h]

/-- Unfolding of `prep_file` when the file has no import statement. -/
theorem prep_file_none (lines : List String) (start end_ : Nat)
    (prep_function_def : String) :
    prep_file lines start end_ prep_function_def none
      = some (String.join
          ((typing_import ++ lines).drop (end_ + 1) ++ ["\n"]
            ++ (typing_import ++ lines).take start ++ [prep_function_def])) := by
  simp only [prep_file]

/-- The `assert first_import_line < function_range.start` of `prep_file`
fires — modelled as `none` — whenever the first import is at or after the
signature's start line. -/
theorem prep_file_assert (lines : List String) (start end_ fil : Nat)
    (prep_function_def : String) (h : ¬ fil < start) :
    prep_file lines start end_ prep_function_def (some fil) = none := by
  simp only [prep_file]
  rw [if_neg h]

/-- C6: decompose the file's lines as `preA ++ preB ++ mid ++ post`, where
`preA` is the lines above the first import (line `fil`), `preB` the lines
from the first import up to the signature, `mid` exactly the signature lines
`start..end` and `post` the lines after it.  Then: with an import present and
the precondition `fil < start` holding, `prep_file` inserts the typing import
immediately above line `fil`, removes exactly `mid`, and returns `post`, the
blank separator, the before-text with the inserted import, and the partial
signature prefix last; with no import, the typing import becomes the very
first line; and when the precondition is violated the assertion fires
(`none`), not a recoverable result. -/
theorem c6_prep_file_inserts_cuts_reorders (preA preB mid post : List String)
    (start end_ fil : Nat) (prep_function_def : String)
    (h1 : 1 ≤ fil) (h2 : fil < start) (h3 : start ≤ end_ + 1)
    (hA : preA.length = fil - 1) (hB : preB.length = start - fil)
    (hM : mid.length = end_ + 1 - start) :
    prep_file (preA ++ preB ++ mid ++ post) start end_ prep_function_def (some fil)
      = some (String.join (post ++ ["\n"]
          ++ (preA ++ typing_import ++ preB) ++ [prep_function_def])) ∧
    prep_file (preA ++ preB ++ mid ++ post) start end_ prep_function_def none
      = some (String.join (post ++ ["\n"]
          ++ (typing_import ++ preA ++ preB) ++ [prep_function_def])) ∧
    (∀ badFil : Nat, start ≤ badFil →
      prep_file (preA ++ preB ++ mid ++ post) start end_ prep_function_def (some badFil)
        = none) := by
  have hassoc : preA ++ preB ++ mid ++ post = preA ++ (preB ++ (mid ++ post)) := by
    simp [List.append_assoc]
  refine ⟨?_, ?_, ?_⟩
  · rw [prep_file_some _ _ _ _ _ h2]
    have htake : (preA ++ preB ++ mid ++ post).take (fil - 1) = preA := by
      rw [hassoc]; exact List.take_left' hA
    have hdrop : (preA ++ preB ++ mid ++ post).drop (fil - 1)
        = preB ++ (mid ++ post) := by
      rw [hassoc]; exact List.drop_left' hA
    rw [htake, hdrop]
    have hre1 : preA ++ typing_import ++ (preB ++ (mid ++ post))
        = (preA ++ typing_import ++ (preB ++ mid)) ++ post := by
      simp [List.append_assoc]
    have hre2 : preA ++ typing_import ++ (preB ++ (mid ++ post))
        = (preA ++ typing_import ++ preB) ++ (mid ++ post) := by
      simp [List.append_assoc]
    have hlsdrop : (preA ++ typing_import ++ (preB ++ (mid ++ post))).drop (end_ + 1)
        = post := by
      rw [hre1]
      refine List.drop_left' ?_
      simp only [List.length_append, hA, hB, hM, typing_import, List.length_cons,
        List.length_nil]
      omega
    have hlstake : (preA ++ typing_import ++ (preB ++ (mid ++ post))).take start
        = preA ++ typing_import ++ preB := by
      rw [hre2]
      refine List.take_left' ?_
      simp only [List.length_append, hA, hB, typing_import, List.length_cons,
        List.length_nil]
      omega
    rw [hlsdrop, hlstake]
  · rw [prep_file_none]
    have hre1 : typing_import ++ (preA ++ preB ++ mid ++ post)
        = (typing_import ++ (preA ++ (preB ++ mid))) ++ post := by
      simp [List.append_assoc]
    have hre2 : typing_import ++ (preA ++ preB ++ mid ++ post)
        = (typing_import ++ preA ++ preB) ++ (mid ++ post) := by
      simp [List.append_assoc]
    have hlsdrop : (typing_import ++ (preA ++ preB ++ mid ++ post)).drop (end_ + 1)
        = post := by
      rw [hre1]
      refine List.drop_left' ?_
      simp only [List.length_append, hA, hB, hM, typing_import, List.length_cons,
        List.length_nil]
      omega
    have hlstake : (typing_import ++ (preA ++ preB ++ mid ++ post)).take start
        = typing_import ++ preA ++ preB := by
      rw [hre2]
      refine List.take_left' ?_
      simp only [List.length_append, hA, hB, typing_import, List.length_cons,
        List.length_nil]
      omega
    rw [hlsdrop, hlstake]
  · intro badFil hbad
    exact prep_file_assert _ _ _ _ _ (by omega)

/-- Witness for C6: a six-line file whose first import sits on line 2 below a
docstring line, with the unannotated `add` signature on line 4 and its body on
line 5.  The prompt puts the trailing call first, then the separator, then the
docstring, the synthetic typing import, the original import and blank line,
and the partial signature prefix last. -/
theorem c6_prep_file_inserts_cuts_reorders_witness :
    prep_file ["\"\"\"doc\"\"\"\n", "import os\n", "\n", "def add(x, y):\n",
        "    return x + y\n", "add(1, 2)\n"] 4 5 "def add(x:" (some 2)
      = some "add(1, 2)\n\n\"\"\"doc\"\"\"\nfrom typing import *\nimport os\n\ndef add(x:" :=
  ((c6_prep_file_inserts_cuts_reorders ["\"\"\"doc\"\"\"\n"] ["import os\n", "\n"]
      ["def add(x, y):\n", "    return x + y\n"] ["add(1, 2)\n"]
      4 5 2 "def add(x:" (by decide) (by decide) (by decide) rfl rfl rfl).1).trans
    (by decide)

/-- C5: for every function node and every token stream of its slice, the
resolved `end` is strictly below the first body statement's line: `end`
starts at `body[0].lineno - 1` and the loop only ever decrements it, so no
body line is ever part of the resolved signature range. -/
theorem c5_end_strictly_before_body (defLine firstBodyLine : Int)
    (sliceToks : List Tok) :
    (get_typed_function_range defLine firstBodyLine sliceToks).2 < firstBodyLine := by
  have h := adjustEnd_le sliceToks.reverse (firstBodyLine - 1)
  simp only [get_typed_function_range, resolveEnd]
  omega

/-! ## Claim C7 -/

/-- Splicing a range's own signature lines back at offset `0` is the identity
on both the line list and the offset. -/
theorem splice_step_id (lines : List String) (start end_ : Int)
    (h1 : 1 ≤ start) (h2 : start ≤ end_ + 1) (h3 : end_ ≤ lines.length) :
    splice_step lines 0 start end_ (signature_slice lines start end_)
      = (lines, 0) := by
  unfold splice_step signature_slice
  rw [Prod.mk.injEq]
  constructor
  · simp only [add_zero]
    rw [← List.take_add]
    rw [show (start - 1).toNat + (end_ + 1 - start).toNat = end_.toNat from by omega]
    exact List.take_append_drop end_.toNat lines
  · simp only [List.length_take, List.length_drop]
    omega

/-- C7: round-trip of the offset-tracking splice.  When every range of a pass
receives replacement lines identical to its own original signature lines, the
final line list is the original one, byte for byte, and the final offset is
`0`.  Each range `(start, end)` is required to be a signature range of the
file: `1 ≤ start`, `start ≤ end + 1` and `end` at most the file's line
count. -/
theorem c7_splice_roundtrip (original : List String) (ranges : List (Int × Int))
    (h : ∀ r ∈ ranges, 1 ≤ r.1 ∧ r.1 ≤ r.2 + 1 ∧ r.2 ≤ original.length) :
    splice_run original ranges (Function.uncurry (signature_slice original))
      = (original, 0) := by
  induction ranges with
  | nil => rfl
  | cons r rs ih =>
    have hr := h r (List.mem_cons_self r rs)
    have hstep := splice_step_id original r.1 r.2 hr.1 hr.2.1 hr.2.2
    have ihh := ih (fun x hx => h x (List.mem_cons_of_mem r hx))
    simp only [splice_run, List.foldl_cons] at ihh ⊢
    rw [show (Function.uncurry (signature_slice original)) r
        = signature_slice original r.1 r.2 from rfl]
    rw [hstep]
    exact ihh

/-- Witness for C7 on a concrete four-line file with two ranges spliced in one
pass: the multi-line range `(2, 3)` and the single-line range `(1, 1)`. -/
theorem c7_splice_roundtrip_witness :
    splice_run ["def f(\n", "    x):\n", "    pass\n", "x = f(1)\n"]
        [(2, 3), (1, 1)]
        (Function.uncurry
          (signature_slice ["def f(\n", "    x):\n", "    pass\n", "x = f(1)\n"]))
      = (["def f(\n", "    x):\n", "    pass\n", "x = f(1)\n"], 0) :=
  c7_splice_roundtrip ["def f(\n", "    x):\n", "    pass\n", "x = f(1)\n"]
    [(2, 3), (1, 1)] (by decide)

/-! ## Claim C8 -/

/-- C8: when the oracle rejects the prompt as too large,
`try_complete_or_shorten` retries exactly once, on the prompt shortened by
`shorten_file_by_removing_comments` (comment and blank lines stripped); and
when the retry is also rejected, the function being processed is left
unchanged — same lines, same offset — so the per-function failure never
aborts the file. -/
theorem c8_retry_once_then_keep_original
    (complete : String → Except Unit String) (prompt prep_function_def : String)
    (lines : List String) (offset start end_ : Int)
    (h1 : complete prompt = Except.error ())
    (h2 : complete (shorten_file_by_removing_comments prompt) = Except.error ()) :
    try_complete_or_shorten complete prompt
      = complete (shorten_file_by_removing_comments prompt) ∧
    process_function complete lines offset start end_ prompt prep_function_def
      = (lines, offset) := by
  have hfirst : try_complete_or_shorten complete prompt
      = complete (shorten_file_by_removing_comments prompt) := by
    unfold try_complete_or_shorten
    rw [h1]
  refine ⟨hfirst, ?_⟩
  unfold process_function
  rw [hfirst, h2]

/-- Witness for C8: an oracle that rejects both the original prompt and its
shortened form leaves the two-line file and the zero offset untouched. -/
theorem c8_retry_once_then_keep_original_witness :
    try_complete_or_shorten failing_oracle "# big comment\nx = 1\n"
      = Except.error () ∧
    process_function failing_oracle ["def f(x):\n", "    pass\n"] 0 1 1
        "# big comment\nx = 1\n" "def f(x:"
      = (["def f(x):\n", "    pass\n"], 0) :=
  c8_retry_once_then_keep_original failing_oracle "# big comment\nx = 1\n"
    "def f(x:" ["def f(x):\n", "    pass\n"] 0 1 1 rfl rfl

/-! ## Claim C9 -/

/-- Forest size distributes over concatenation. -/
theorem sizeF_fappend (a b : PyForest) :
    sizeF (fappend a b) = sizeF a + sizeF b := by
  induction a with
  | nil => simp [fappend, sizeF]
  | node k l c s ihc ihs =>
    simp only [fappend, sizeF, ihs]
    omega

/-- Top-level nodes distribute over concatenation. -/
theorem topNodes_fappend (a b : PyForest) :
    topNodes (fappend a b) = topNodes a ++ topNodes b := by
  induction a with
  | nil => simp [fappend, topNodes]
  | node k l c s ihc ihs =>
    simp only [fappend, topNodes, ihs, List.cons_append]

/-- Plain-import presence distributes over concatenation. -/
theorem containsImport_fappend (a b : PyForest) :
    containsImport (fappend a b)
      = (containsImport a || containsImport b) := by
  induction a with
  | nil => simp [fappend, containsImport]
  | node k l c s ihc ihs =>
    simp only [fappend, containsImport, ihs, Bool.or_assoc]

/-- The fuelled walk of an empty queue is empty for any fuel. -/
theorem walkBFSFuel_nilq (f : Nat) : walkBFSFuel f PyForest.nil = [] := by
  cases f <;> rfl

/-- Any two sufficient fuels give the same walk. -/
theorem walkBFSFuel_congr : ∀ (f g : Nat) (q : PyForest),
    sizeF q ≤ f → sizeF q ≤ g → walkBFSFuel f q = walkBFSFuel g q := by
  intro f
  induction f using Nat.strong_induction_on with
  | _ f ih =>
    intro g q hf hg
    cases q with
    | nil => rw [walkBFSFuel_nilq, walkBFSFuel_nilq]
    | node k l c s =>
      have hsz : sizeF (PyForest.node k l c s) = 1 + sizeF c + sizeF s := rfl
      have hfs : sizeF (fappend s c) = sizeF s + sizeF c := sizeF_fappend s c
      cases f with
      | zero => omega
      | succ f2 =>
        cases g with
        | zero => omega
        | succ g2 =>
          show (k, l) :: walkBFSFuel f2 (fappend s c)
            = (k, l) :: walkBFSFuel g2 (fappend s c)
          congr 1
          exact ih f2 (by omega) g2 (fappend s c) (by omega) (by omega)

/-- Unfolding of the breadth-first walk at a non-empty queue: visit the first
node, then walk the rest of the queue extended with its children. -/
theorem walkBFS_node (k : PyKind) (l : Nat) (c s : PyForest) :
    walkBFS (PyForest.node k l c s) = (k, l) :: walkBFS (fappend s c) := by
  have hsz : sizeF (PyForest.node k l c s) = 1 + sizeF c + sizeF s := rfl
  have hfs : sizeF (fappend s c) = sizeF s + sizeF c := sizeF_fappend s c
  have hsz2 : sizeF (PyForest.node k l c s) = (sizeF c + sizeF s) + 1 := by omega
  unfold walkBFS
  rw [hsz2]
  show (k, l) :: walkBFSFuel (sizeF c + sizeF s) (fappend s c)
    = (k, l) :: walkBFSFuel (sizeF (fappend s c)) (fappend s c)
  congr 1
  exact walkBFSFuel_congr _ _ _ (by omega) (le_refl _)

/-- The breadth-first walk lists the queue itself first, then descendants. -/
theorem walkBFS_eq_append : ∀ (f : Nat) (q : PyForest), sizeF q ≤ f →
    ∃ r, walkBFS q = topNodes q ++ r := by
  intro f
  induction f using Nat.strong_induction_on with
  | _ f ih =>
    intro q hq
    cases q with
    | nil => exact ⟨[], rfl⟩
    | node k l c s =>
      have hsz : sizeF (PyForest.node k l c s) = 1 + sizeF c + sizeF s := rfl
      have hfs : sizeF (fappend s c) = sizeF s + sizeF c := sizeF_fappend s c
      cases f with
      | zero => omega
      | succ f2 =>
        obtain ⟨r, hr⟩ := ih f2 (by omega) (fappend s c) (by omega)
        refine ⟨topNodes c ++ r, ?_⟩
        rw [walkBFS_node, hr, topNodes_fappend]
        simp [topNodes, List.append_assoc]

/-- The walk finds no plain-import node exactly when the queued forest
contains none at all. -/
theorem walkBFS_all_no_import : ∀ (f : Nat) (q : PyForest), sizeF q ≤ f →
    (walkBFS q).all (fun n => !(n.1 == PyKind.imp)) = !containsImport q := by
  intro f
  induction f using Nat.strong_induction_on with
  | _ f ih =>
    intro q hq
    cases q with
    | nil => rfl
    | node k l c s =>
      have hsz : sizeF (PyForest.node k l c s) = 1 + sizeF c + sizeF s := rfl
      have hfs : sizeF (fappend s c) = sizeF s + sizeF c := sizeF_fappend s c
      cases f with
      | zero => omega
      | succ f2 =>
        have hrec := ih f2 (by omega) (fappend s c) (by omega)
        rw [walkBFS_node, List.all_cons, hrec, containsImport_fappend]
        show ((!(k == PyKind.imp)) && !(containsImport s || containsImport c))
          = !((k == PyKind.imp) || containsImport c || containsImport s)
        cases hb : (k == PyKind.imp) <;>
          cases hc : containsImport c <;>
            cases hs2 : containsImport s <;> rfl

/-- C9 counterexample: for `def f():\n    import os\nimport sys\n` the
first import statement appearing in the file is the nested `import os` on line 2,
but `ast.walk` is breadth first, so `find_first_import` reaches the
module-level `import sys` on line 3 first and returns 3, not 2. -/
theorem c9_counterexample_nested_import :
    find_first_import nestedImportTree = some 3 ∧
    (importLinenos nestedImportTree).head? = some 2 ∧
    find_first_import nestedImportTree ≠ (importLinenos nestedImportTree).head? := by
  refine ⟨by decide, by decide, by decide⟩

/-- C9 amended: `find_first_import` returns the `lineno` of the first plain
`import` node in breadth-first walk order — so whenever any module-level
plain import exists, the textually first module-level one, even if a nested
one occurs earlier in the file — and returns `none` exactly when the tree contains
no plain-import node at all (in particular for files whose only imports are of
the `from module import name` form, which are `ImportFrom` nodes). -/
theorem c9_amended_first_module_level_import (k : PyKind) (l : Nat)
    (c : PyForest) (hk : k ≠ PyKind.imp) :
    (find_first_import (PyForest.node k l c PyForest.nil) = none
      ↔ containsImport (PyForest.node k l c PyForest.nil) = false) ∧
    (((topNodes c).find? (fun n => n.1 == PyKind.imp)).isSome →
      find_first_import (PyForest.node k l c PyForest.nil)
        = ((topNodes c).find? (fun n => n.1 == PyKind.imp)).map Prod.snd) := by
  have hkb : (k == PyKind.imp) = false := by
    cases hbk : (k == PyKind.imp) with
    | false => rfl
    | true => exact absurd (eq_of_beq hbk) hk
  constructor
  · unfold find_first_import
    rw [Option.map_eq_none', List.find?_eq_none]
    have hwalk := walkBFS_all_no_import (sizeF (PyForest.node k l c PyForest.nil))
      (PyForest.node k l c PyForest.nil) (le_refl _)
    constructor
    · intro hnone
      have hall : (walkBFS (PyForest.node k l c PyForest.nil)).all
          (fun n => !(n.1 == PyKind.imp)) = true := by
        rw [List.all_eq_true]
        intro x hx
        simpa using hnone x hx
      rw [hwalk] at hall
      simpa using hall
    · intro hfalse x hx
      have hall : (walkBFS (PyForest.node k l c PyForest.nil)).all
          (fun n => !(n.1 == PyKind.imp)) = true := by
        rw [hwalk, hfalse]
        rfl
      rw [List.all_eq_true] at hall
      simpa using hall x hx
  · intro hsome
    obtain ⟨v, hv⟩ := Option.isSome_iff_exists.mp hsome
    unfold find_first_import
    rw [walkBFS_node]
    simp only [fappend]
    rw [List.find?_cons_of_neg _ (by simp [hkb])]
    obtain ⟨r, hr⟩ := walkBFS_eq_append (sizeF c) c (le_refl _)
    rw [hr, List.find?_append, hv]
    rfl

/-- Witness for C9 amended at a concrete module whose children are a
from-import on line 1 and a plain import on line 3: the walk skips the
`ImportFrom` node and returns line 3, the first module-level plain import. -/
theorem c9_amended_first_module_level_import_witness :
    (find_first_import (PyForest.node PyKind.module 0
          (PyForest.node PyKind.impFrom 1 PyForest.nil
            (PyForest.node PyKind.imp 3 PyForest.nil PyForest.nil))
          PyForest.nil) = none
      ↔ containsImport (PyForest.node PyKind.module 0
          (PyForest.node PyKind.impFrom 1 PyForest.nil
            (PyForest.node PyKind.imp 3 PyForest.nil PyForest.nil))
          PyForest.nil) = false) ∧
    (((topNodes (PyForest.node PyKind.impFrom 1 PyForest.nil
          (PyForest.node PyKind.imp 3 PyForest.nil PyForest.nil))).find?
        (fun n => n.1 == PyKind.imp)).isSome →
      find_first_import (PyForest.node PyKind.module 0
          (PyForest.node PyKind.impFrom 1 PyForest.nil
            (PyForest.node PyKind.imp 3 PyForest.nil PyForest.nil))
          PyForest.nil)
        = ((topNodes (PyForest.node PyKind.impFrom 1 PyForest.nil
            (PyForest.node PyKind.imp 3 PyForest.nil PyForest.nil))).find?
              (fun n => n.1 == PyKind.imp)).map Prod.snd) :=
  c9_amended_first_module_level_import PyKind.module 0
    (PyForest.node PyKind.impFrom 1 PyForest.nil
      (PyForest.node PyKind.imp 3 PyForest.nil PyForest.nil)) (by decide)

end AutoTyper
